import Mathlib

/-!
Shallow embedding of the mafia-lite game core.

Sources embedded here:
- packages/contracts/src/types (data model: Player, Vote, NightAction, RoomState, ...)
- packages/engine/src/reducers/victory.ts (checkVictoryCondition)
- packages/engine/src/reducers/voting.ts (resolveVoting, calculateVoteTallies,
  resolveMajorityVote, resolvePluralityVote, generateVoteNarrative)
- packages/engine/src/reducers/night-resolution.ts (resolveNightActions and helpers)
- packages/contracts/src/redaction/views.ts (createClientView)
- backend services/policy-service (PolicyService.validateNightAction, validateVote)
- backend socket handlers (the `action.submit` and `vote.cast` dispatcher slices)
- backend services/room-service (RoomService.updateRoomState) with the zod
  RoomStateSchema of packages/contracts/src/schemas/base.ts

JavaScript `Record<Id, T>` objects are modelled as insertion-ordered association
lists `List (Id × T)`: `Object.values` is `List.map Prod.snd`, property access is
`List.lookup`, and spread-with-override `\x7b...obj, [k]: v\x7d` is `setKey`
(replace in place if the key exists, append otherwise), matching the key-order
semantics of JS string-keyed objects.  JS truthiness of strings (the code guards
`if (killedPlayerId)`, `if (!state.hostId)` and so on) is modelled explicitly:
a string is truthy iff it is nonempty.
-/

namespace Mafia

abbrev PId := String

inductive Alignment where
  | mafia | town | neutral
deriving DecidableEq, Repr

inductive RoleId where
  | mafia | detective | doctor | townsperson
deriving DecidableEq, Repr

inductive ActionType where
  | KILL | PROTECT | INVESTIGATE | NONE
deriving DecidableEq, Repr

inductive PlayerStatus where
  | alive | dead | disconnected
deriving DecidableEq, Repr

/-- The union of the phase vocabularies appearing in the source: the TypeScript
type in contracts/types/base.ts declares `lobby|night|day|vote|ended`, while the
zod schema and the redaction / policy / registry code use the richer set
`lobby|night|day_announcement|day_discussion|day_voting|ended`. -/
inductive Phase where
  | lobby | night | day | vote | ended
  | day_announcement | day_discussion | day_voting
deriving DecidableEq, Repr

inductive VictoryCondition where
  | mafiaVictory | townVictory | none
deriving DecidableEq, Repr

inductive VotingMode where
  | majority | plurality
deriving DecidableEq, Repr

structure Player where
  id : PId
  name : String
  roleId : RoleId
  alignment : Alignment
  status : PlayerStatus
  connected : Bool
  afkStrikes : Nat
deriving DecidableEq, Repr

structure NightAction where
  id : PId
  actionId : PId
  playerId : PId
  type : ActionType
  targetId : PId
  submittedAt : Nat
  priority : Nat
deriving DecidableEq, Repr

structure Vote where
  id : PId
  actionId : PId
  playerId : PId
  targetId : Option PId
  submittedAt : Nat
deriving DecidableEq, Repr

structure InvestigationResult where
  targetId : PId
  isMafia : Bool
  investigatorId : PId
deriving DecidableEq, Repr

structure RoomSettings where
  nightDurationMs : Nat
  dayDurationMs : Nat
  voteDurationMs : Nat
  revealRolesOnDeath : Bool
  anonymousVoting : Bool
  votingMode : VotingMode
  minPlayers : Nat
  maxPlayers : Nat
deriving DecidableEq, Repr

structure PhaseTimer where
  phase : Phase
  submittedAt : Nat
  endsAt : Nat
deriving DecidableEq, Repr

structure RoomState where
  id : PId
  code : String
  hostId : PId
  phase : Phase
  timer : Option PhaseTimer
  settings : RoomSettings
  players : List (PId × Player)
  nightActions : List (PId × NightAction)
  votes : List (PId × Vote)
  investigationResults : List InvestigationResult
  publicNarrative : List String
  victoryCondition : VictoryCondition
  protocolVersion : Nat
  lastSnapshot : Nat
deriving DecidableEq, Repr

/-- JS object update `\x7b...obj, [k]: v\x7d`: replace the value in place when
the key already exists, append the pair otherwise. -/
def setKey {α : Type} (l : List (PId × α)) (k : PId) (v : α) : List (PId × α) :=
  if l.any (fun p => p.1 == k) then
    l.map (fun p => if p.1 == k then (k, v) else p)
  else l ++ [(k, v)]

/-- JS string truthiness: a string is truthy iff nonempty. -/
def truthy (s : PId) : Bool := s != ""

/-! ## victory.ts : checkVictoryCondition -/

def checkVictoryCondition (state : RoomState) : VictoryCondition :=
  let alivePlayers := (state.players.map Prod.snd).filter
    (fun p => p.status == PlayerStatus.alive)
  let aliveMafia := alivePlayers.filter (fun p => p.alignment == Alignment.mafia)
  let aliveTown := alivePlayers.filter (fun p => p.alignment == Alignment.town)
  let aliveNeutral := alivePlayers.filter (fun p => p.alignment == Alignment.neutral)
  if aliveMafia.length ≥ aliveTown.length + aliveNeutral.length then
    VictoryCondition.mafiaVictory
  else if aliveMafia.length = 0 then
    VictoryCondition.townVictory
  else
    VictoryCondition.none

/-! ## voting.ts -/

/-- `calculateVoteTallies`: initialise a tally of 0 for every alive player id,
then add 1 for each vote whose (truthy, non-null) target has a tally entry. -/
def calculateVoteTallies (votes : List Vote) (alivePlayerIds : List PId) :
    List (PId × Nat) :=
  let init := alivePlayerIds.foldl (fun t pid => setKey t pid 0) []
  votes.foldl (fun t v =>
    match v.targetId with
    | some tid =>
      if truthy tid then
        match List.lookup tid t with
        | some n => setKey t tid (n + 1)
        | Option.none => t
      else t
    | Option.none => t) init

/-- The fold body of `resolveMajorityVote`: accumulator is
(highestVotes, winnersCount, winner). -/
def majorityStep (acc : Nat × Nat × Option PId) (e : PId × Nat) :
    Nat × Nat × Option PId :=
  if e.2 > acc.1 then (e.2, 1, some e.1)
  else if e.2 == acc.1 && decide (e.2 > 0) then (acc.1, acc.2.1 + 1, acc.2.2)
  else acc

/-- `resolveMajorityVote`: requires highest count ≥ ⌊aliveCount/2⌋+1 and a
unique top holder. -/
def resolveMajorityVote (tallies : List (PId × Nat)) (aliveCount : Nat) :
    Option PId :=
  let majorityThreshold := aliveCount / 2 + 1
  let r := tallies.foldl majorityStep (0, 0, Option.none)
  if r.1 ≥ majorityThreshold && r.2.1 == 1 then r.2.2 else Option.none

/-- The fold body of `resolvePluralityVote`: accumulator is
(highestVotes, winner); only a strictly higher count replaces the winner. -/
def pluralityStep (acc : Nat × Option PId) (e : PId × Nat) : Nat × Option PId :=
  if e.2 > acc.1 then (e.2, some e.1) else acc

/-- `resolvePluralityVote`: highest vote count wins; null only when every tally
is 0. -/
def resolvePluralityVote (tallies : List (PId × Nat)) : Option PId :=
  let r := tallies.foldl pluralityStep (0, Option.none)
  if r.1 > 0 then r.2 else Option.none

def roleIdName : RoleId → String
  | RoleId.mafia => "mafia"
  | RoleId.detective => "detective"
  | RoleId.doctor => "doctor"
  | RoleId.townsperson => "townsperson"

def generateVoteNarrative (lynchTargetId : Option PId)
    (tallies : List (PId × Nat)) (state : RoomState) : String :=
  match lynchTargetId with
  | Option.none => "No one was lynched. The town could not reach a decision."
  | some lid =>
    if truthy lid then
      match List.lookup lid state.players with
      | Option.none => "Lynch target not found."
      | some lynchTarget =>
        let voteCount := (List.lookup lid tallies).getD 0
        let roleReveal := if state.settings.revealRolesOnDeath then
            " They were a " ++ roleIdName lynchTarget.roleId ++ "." else ""
        lynchTarget.name ++ " was lynched with " ++ toString voteCount ++
          " votes." ++ roleReveal
    else "No one was lynched. The town could not reach a decision."

structure VotingResult where
  lynchTargetId : Option PId
  tallies : List (PId × Nat)
  narrative : String
  updatedState : RoomState
deriving Repr

def resolveVoting (state : RoomState) : VotingResult :=
  let votes := state.votes.map Prod.snd
  let alivePlayers := (state.players.map Prod.snd).filter
    (fun p => p.status == PlayerStatus.alive)
  let tallies := calculateVoteTallies votes (alivePlayers.map (fun p => p.id))
  let lynchTargetId :=
    if state.settings.votingMode == VotingMode.majority then
      resolveMajorityVote tallies alivePlayers.length
    else
      resolvePluralityVote tallies
  let narrative := generateVoteNarrative lynchTargetId tallies state
  let updatedPlayers :=
    match lynchTargetId with
    | some lid =>
      if truthy lid then
        match List.lookup lid state.players with
        | some lynchTarget => setKey state.players lid { lynchTarget with status := PlayerStatus.dead }
        | Option.none => state.players
      else state.players
    | Option.none => state.players
  let updatedState : RoomState :=
    { state with
        players := updatedPlayers
        publicNarrative := state.publicNarrative ++ [narrative]
        votes := [] }
  { lynchTargetId, tallies, narrative, updatedState }

/-! ## night-resolution.ts -/

/-- `processKillAction` (priority 10): target must exist and be alive, actor
must exist, be alive and be mafia; then the kill is queued on the target. -/
def processKillAction (state : RoomState) (action : NightAction) : Option PId :=
  match List.lookup action.targetId state.players with
  | Option.none => Option.none
  | some target =>
    if target.status != PlayerStatus.alive then Option.none
    else
      match List.lookup action.playerId state.players with
      | Option.none => Option.none
      | some actor =>
        if actor.status != PlayerStatus.alive ||
           actor.alignment != Alignment.mafia then Option.none
        else some action.targetId

/-- `processProtectAction` (priority 20): a valid doctor protect on the queued
kill target cancels the kill. -/
def processProtectAction (state : RoomState) (action : NightAction)
    (queuedKillTarget : Option PId) : Option PId :=
  match List.lookup action.targetId state.players with
  | Option.none => queuedKillTarget
  | some target =>
    if target.status != PlayerStatus.alive then queuedKillTarget
    else
      match List.lookup action.playerId state.players with
      | Option.none => queuedKillTarget
      | some actor =>
        if actor.status != PlayerStatus.alive ||
           actor.roleId != RoleId.doctor then queuedKillTarget
        else if queuedKillTarget == some action.targetId then Option.none
        else queuedKillTarget

/-- `processInvestigateAction` (priority 30): a valid detective investigation
yields a result record. -/
def processInvestigateAction (state : RoomState) (action : NightAction) :
    Option InvestigationResult :=
  match List.lookup action.targetId state.players with
  | Option.none => Option.none
  | some target =>
    if target.status != PlayerStatus.alive then Option.none
    else
      match List.lookup action.playerId state.players with
      | Option.none => Option.none
      | some actor =>
        if actor.status != PlayerStatus.alive ||
           actor.roleId != RoleId.detective then Option.none
        else some { targetId := action.targetId,
                    isMafia := target.alignment == Alignment.mafia,
                    investigatorId := action.playerId }

structure NightResolutionResult where
  killedPlayerId : Option PId
  investigationResults : List InvestigationResult
  narrative : String
  updatedState : RoomState
deriving Repr

/-- One step of the scan over the sorted action list: the accumulator carries
(killedPlayerId, investigationResults so far). -/
def nightScanStep (state : RoomState)
    (acc : Option PId × List InvestigationResult) (action : NightAction) :
    Option PId × List InvestigationResult :=
  match action.type with
  | ActionType.KILL => (processKillAction state action, acc.2)
  | ActionType.PROTECT => (processProtectAction state action acc.1, acc.2)
  | ActionType.INVESTIGATE =>
    match processInvestigateAction state action with
    | some r => (acc.1, acc.2 ++ [r])
    | Option.none => acc
  | ActionType.NONE => acc

/-- `resolveNightActions`: materialise `Object.values(state.nightActions)`,
sort by priority ascending (JS `Array.prototype.sort` with the comparator
`a.priority - b.priority` is stable, so equal priorities keep insertion
order — `insertionSort` has the same stability), scan, then apply the kill. -/
def resolveNightActions (state : RoomState) : NightResolutionResult :=
  let actions := state.nightActions.map Prod.snd
  let sortedActions := actions.insertionSort (fun a b => a.priority ≤ b.priority)
  let scan := sortedActions.foldl (nightScanStep state) (Option.none, [])
  let killedPlayerId := scan.1
  let investigationResults := scan.2
  let narrativeParts :=
    match killedPlayerId with
    | some k =>
      if truthy k then
        match List.lookup k state.players with
        | some killedPlayer => [killedPlayer.name ++ " was eliminated during the night."]
        | Option.none => []
      else ["No one died during the night."]
    | Option.none => ["No one died during the night."]
  let updatedPlayers :=
    match killedPlayerId with
    | some k =>
      if truthy k then
        match List.lookup k state.players with
        | some killedPlayer => setKey state.players k { killedPlayer with status := PlayerStatus.dead }
        | Option.none => state.players
      else state.players
    | Option.none => state.players
  let updatedState : RoomState :=
    { state with
        players := updatedPlayers
        investigationResults := state.investigationResults ++ investigationResults
        publicNarrative := state.publicNarrative ++ narrativeParts
        nightActions := [] }
  { killedPlayerId, investigationResults,
    narrative := String.intercalate " " narrativeParts, updatedState }

/-! ## contracts/src/redaction/views.ts -/

def PROTOCOL_VERSION : Nat := 1

structure PublicPlayer where
  id : PId
  name : String
  status : PlayerStatus
  connected : Bool
  roleId : Option RoleId
deriving DecidableEq, Repr

structure LockedAction where
  type : ActionType
  targetId : PId
deriving DecidableEq, Repr

structure SelfRole where
  roleId : RoleId
  alignment : Alignment
  teammates : Option (List PId)
deriving DecidableEq, Repr

structure ClientView where
  roomId : PId
  code : String
  phase : Phase
  timer : Option PhaseTimer
  settings : RoomSettings
  players : List (PId × PublicPlayer)
  votes : Option (List (PId × Vote))
  hostId : PId
  isHost : Bool
  selfRole : SelfRole
  investigationResults : Option (List InvestigationResult)
  publicNarrative : List String
  victoryCondition : VictoryCondition
  protocolVersion : Nat
  lockedAction : Option LockedAction
deriving DecidableEq, Repr

/-- The per-entry redaction of `createClientView`: `roleId` is kept iff
(`revealRolesOnDeath` and the player is dead) or the entry is the viewer. -/
def redactPlayer (state : RoomState) (playerId : PId) (e : PId × Player) :
    PId × PublicPlayer :=
  (e.1, { id := e.2.id, name := e.2.name, status := e.2.status,
          connected := e.2.connected,
          roleId :=
            if (state.settings.revealRolesOnDeath &&
                e.2.status == PlayerStatus.dead) || e.1 == playerId then
              some e.2.roleId
            else Option.none })

/-- `createClientView` from views.ts.  Throwing (`throw new Error(...)` when
the viewer is not a member) is modelled with `Except`. -/
def createClientView (state : RoomState) (playerId : PId) :
    Except String ClientView :=
  match List.lookup playerId state.players with
  | Option.none => Except.error "Player not found in room"
  | some player =>
    let publicPlayers := state.players.map (redactPlayer state playerId)
    let visibleVotes : Option (List (PId × Vote)) :=
      if state.phase == Phase.day_voting then
        (if state.settings.anonymousVoting then Option.none else some state.votes)
      else if state.phase == Phase.ended ||
              ((state.phase == Phase.day_announcement ||
                state.phase == Phase.day_discussion) &&
               decide (state.votes.length > 0)) then
        some state.votes
      else Option.none
    let teammates : Option (List PId) :=
      if player.alignment == Alignment.mafia then
        some (((state.players.map Prod.snd).filter
          (fun p => p.alignment == Alignment.mafia && p.id != playerId)).map
            (fun p => p.id))
      else Option.none
    let investigationResults : Option (List InvestigationResult) :=
      if player.roleId == RoleId.detective then
        some (state.investigationResults.filter
          (fun r => r.investigatorId == playerId))
      else Option.none
    let lockedAction : Option LockedAction :=
      match List.lookup playerId state.nightActions with
      | some playerAction =>
        if state.phase == Phase.night then
          some { type := playerAction.type, targetId := playerAction.targetId }
        else Option.none
      | Option.none => Option.none
    Except.ok
      { roomId := state.id, code := state.code, phase := state.phase,
        timer := state.timer, settings := state.settings,
        players := publicPlayers, votes := visibleVotes,
        hostId := state.hostId, isHost := playerId == state.hostId,
        selfRole := { roleId := player.roleId, alignment := player.alignment,
                      teammates },
        investigationResults, publicNarrative := state.publicNarrative,
        victoryCondition := state.victoryCondition,
        protocolVersion := PROTOCOL_VERSION, lockedAction }

/-! ## roles/registry.ts (the fields PolicyService consults) -/

inductive TargetFilter where
  | nonMafia | anyAlive
deriving DecidableEq, Repr

structure TargetRules where
  allowSelf : Bool
  allowAlive : Bool
  allowDead : Bool
  filter : Option TargetFilter
deriving DecidableEq, Repr

structure NightSpec where
  type : ActionType
  priority : Nat
deriving DecidableEq, Repr

structure RoleConfig where
  alignment : Alignment
  night : Option NightSpec
  targets : Option TargetRules
deriving DecidableEq, Repr

def getRoleConfig : RoleId → RoleConfig
  | RoleId.mafia =>
    { alignment := Alignment.mafia,
      night := some { type := ActionType.KILL, priority := 10 },
      targets := some { allowSelf := false, allowAlive := true,
                        allowDead := false, filter := some TargetFilter.nonMafia } }
  | RoleId.detective =>
    { alignment := Alignment.town,
      night := some { type := ActionType.INVESTIGATE, priority := 30 },
      targets := some { allowSelf := false, allowAlive := true,
                        allowDead := false, filter := some TargetFilter.anyAlive } }
  | RoleId.doctor =>
    { alignment := Alignment.town,
      night := some { type := ActionType.PROTECT, priority := 20 },
      targets := some { allowSelf := true, allowAlive := true,
                        allowDead := false, filter := some TargetFilter.anyAlive } }
  | RoleId.townsperson =>
    { alignment := Alignment.town,
      night := Option.none,
      targets := some { allowSelf := false, allowAlive := false,
                        allowDead := false, filter := Option.none } }

/-! ## backend services/policy-service : PolicyService -/

inductive ErrCode where
  | WRONG_PHASE | DEAD_PLAYER | INVALID_TARGET | UNAUTHORIZED | ROOM_NOT_FOUND
deriving DecidableEq, Repr

/-- `PolicyService.validateNightAction`; `Option.none` means the action is
valid, `some code` is the violation code returned to the client. -/
def policyValidateNightAction (state : RoomState) (action : NightAction) :
    Option ErrCode :=
  if state.phase != Phase.night then some ErrCode.WRONG_PHASE
  else
    match List.lookup action.playerId state.players with
    | Option.none => some ErrCode.UNAUTHORIZED
    | some actor =>
      if actor.status != PlayerStatus.alive then some ErrCode.DEAD_PLAYER
      else
        match List.lookup action.targetId state.players with
        | Option.none => some ErrCode.INVALID_TARGET
        | some target =>
          if target.status != PlayerStatus.alive then some ErrCode.INVALID_TARGET
          else
            let roleConfig := getRoleConfig actor.roleId
            match roleConfig.night with
            | Option.none => some ErrCode.UNAUTHORIZED
            | some nightSpec =>
              if nightSpec.type != action.type then some ErrCode.UNAUTHORIZED
              else
                match roleConfig.targets with
                | Option.none => Option.none
                | some rules =>
                  if !rules.allowSelf && action.playerId == action.targetId then
                    some ErrCode.INVALID_TARGET
                  else if rules.filter == some TargetFilter.nonMafia &&
                          target.alignment == Alignment.mafia then
                    some ErrCode.INVALID_TARGET
                  else Option.none

/-- `PolicyService.validateVote`.  Note the phase guard compares against the
literal phase `vote` of contracts/types/base.ts. -/
def policyValidateVote (state : RoomState) (vote : Vote) : Option ErrCode :=
  if state.phase != Phase.vote then some ErrCode.WRONG_PHASE
  else
    match List.lookup vote.playerId state.players with
    | Option.none => some ErrCode.UNAUTHORIZED
    | some voter =>
      if voter.status != PlayerStatus.alive then some ErrCode.DEAD_PLAYER
      else
        match vote.targetId with
        | Option.none => Option.none
        | some tid =>
          match List.lookup tid state.players with
          | Option.none => some ErrCode.INVALID_TARGET
          | some target =>
            if target.status != PlayerStatus.alive then some ErrCode.INVALID_TARGET
            else Option.none

/-! ## backend socket handlers: the `action.submit` and `vote.cast` slices

The handlers check the dedup cache for the submitted `actionId`, build the
action or vote object, run the policy gate, and on success add the record to
the room state keyed by `actionId` before committing it via
`RoomService.updateRoomState`.  The dedup cache is modelled as the list of
actionIds already seen; the function returns the updated cache together with
the state the handler passes to the store. -/

def actionSubmitStep (dedup : List PId) (state : RoomState)
    (currentPlayerId actionId : PId) (type : ActionType) (targetId : PId)
    (now : Nat) : List PId × RoomState :=
  if dedup.contains actionId then (dedup, state)
  else
    let dedup2 := actionId :: dedup
    let nightAction : NightAction :=
      { id := actionId, actionId, playerId := currentPlayerId, type, targetId,
        submittedAt := now,
        priority := if type == ActionType.KILL then 10
                    else if type == ActionType.PROTECT then 20 else 30 }
    match policyValidateNightAction state nightAction with
    | some _ => (dedup2, state)
    | Option.none =>
      (dedup2, { state with
        nightActions := setKey state.nightActions actionId nightAction })

def voteCastStep (dedup : List PId) (state : RoomState)
    (currentPlayerId actionId : PId) (targetId : Option PId) (now : Nat) :
    List PId × RoomState :=
  if dedup.contains actionId then (dedup, state)
  else
    let dedup2 := actionId :: dedup
    let vote : Vote :=
      { id := actionId, actionId, playerId := currentPlayerId, targetId,
        submittedAt := now }
    match policyValidateVote state vote with
    | some _ => (dedup2, state)
    | Option.none =>
      (dedup2, { state with votes := setKey state.votes actionId vote })

/-! ## contracts/src/schemas/base.ts : RoomStateSchema, and
backend services/room-service : RoomService.updateRoomState -/

def idValid (s : String) : Bool :=
  decide (1 ≤ s.length) && decide (s.length ≤ 128)

/-- The zod `PhaseSchema` enumerates only these phases (in particular neither
`day` nor `vote` of contracts/types/base.ts). -/
def phaseInSchema : Phase → Bool
  | Phase.lobby | Phase.night | Phase.day_announcement
  | Phase.day_discussion | Phase.day_voting | Phase.ended => true
  | Phase.day | Phase.vote => false

def playerSchemaValid (p : Player) : Bool :=
  idValid p.id && decide (1 ≤ p.name.length) && decide (p.name.length ≤ 50)

def nightActionSchemaValid (a : NightAction) : Bool :=
  idValid a.id && idValid a.actionId && idValid a.playerId && idValid a.targetId
    && (a.priority == 10 || a.priority == 20 || a.priority == 30)

def voteSchemaValid (v : Vote) : Bool :=
  idValid v.id && idValid v.actionId && idValid v.playerId &&
    (match v.targetId with | some t => idValid t | Option.none => true)

def investigationResultSchemaValid (r : InvestigationResult) : Bool :=
  idValid r.investigatorId && idValid r.targetId

def roomStateSchemaValid (st : RoomState) : Bool :=
  idValid st.id && decide (st.code.length = 6) && idValid st.hostId &&
  phaseInSchema st.phase &&
  (match st.timer with
   | some t => phaseInSchema t.phase
   | Option.none => true) &&
  decide (3 ≤ st.settings.minPlayers) && decide (3 ≤ st.settings.maxPlayers) &&
  st.players.all (fun e => idValid e.1 && playerSchemaValid e.2) &&
  st.nightActions.all (fun e => idValid e.1 && nightActionSchemaValid e.2) &&
  st.votes.all (fun e => idValid e.1 && voteSchemaValid e.2) &&
  st.investigationResults.all investigationResultSchemaValid &&
  decide (1 ≤ st.protocolVersion)

/-- `RoomService.updateRoomState`: reads the pre-image (`existingState`),
checks the hostId invariants, re-copies the pre-image hostId, stamps
`lastSnapshot`, validates against `RoomStateSchema`, and stores the result.
A thrown error is modelled as `Except.error`; the store keeps its previous
contents in that case. -/
def updateRoomState (existingState : Option RoomState) (state : RoomState)
    (now : Nat) : Except String RoomState :=
  if !truthy state.hostId then
    Except.error "Invariant violation: hostId missing in update"
  else if (match existingState with
           | some ex => state.hostId != ex.hostId
           | Option.none => false) then
    Except.error "Invariant violation: hostId changed unexpectedly"
  else
    let updatedState :=
      { state with
          hostId := (match existingState with
                     | some ex => if truthy ex.hostId then ex.hostId else state.hostId
                     | Option.none => state.hostId),
          lastSnapshot := now }
    if roomStateSchemaValid updatedState then Except.ok updatedState
    else Except.error "RoomStateSchema parse failed"

/-! ## Claim-side vocabulary

These definitions restate notions used by the specification sentences (highest
tally, unique top holder, alive counts) independently of the fold-based code
above, so that the theorems relate the code to them. -/

/-- The highest tally value (0 for an empty tally map). -/
def maxCount (t : List (PId × Nat)) : Nat :=
  t.foldr (fun e m => max e.2 m) 0

/-- Number of players with the given status/alignment combination. -/
def alignedAliveCount (players : List (PId × Player)) (al : Alignment) : Nat :=
  (players.map Prod.snd).countP
    (fun p => p.status == PlayerStatus.alive && p.alignment == al)

/-! ## Concrete fixtures -/

def defaultSettings : RoomSettings :=
  { nightDurationMs := 60000, dayDurationMs := 120000, voteDurationMs := 60000,
    revealRolesOnDeath := false, anonymousVoting := false,
    votingMode := VotingMode.majority, minPlayers := 5, maxPlayers := 15 }

def mkPlayer (id name : String) (roleId : RoleId) (al : Alignment)
    (status : PlayerStatus) : Player :=
  { id, name, roleId, alignment := al, status, connected := true,
    afkStrikes := 0 }

def mkState (phase : Phase) (settings : RoomSettings)
    (players : List (PId × Player)) (nightActions : List (PId × NightAction))
    (votes : List (PId × Vote)) : RoomState :=
  { id := "room1", code := "ABCDEF", hostId := "p1", phase,
    timer := Option.none, settings, players, nightActions, votes,
    investigationResults := [], publicNarrative := [],
    victoryCondition := VictoryCondition.none, protocolVersion := 1,
    lastSnapshot := 0 }

def mkVote (actionId playerId : PId) (targetId : Option PId) : Vote :=
  { id := actionId, actionId, playerId, targetId, submittedAt := 0 }

def mkKill (actionId playerId targetId : PId) (submittedAt : Nat) : NightAction :=
  { id := actionId, actionId, playerId, type := ActionType.KILL, targetId,
    submittedAt, priority := 10 }

end Mafia

namespace Mafia

def c2State : RoomState :=
  mkState Phase.day_voting { defaultSettings with votingMode := VotingMode.plurality }
    [("p1", mkPlayer "p1" "Player1" RoleId.townsperson Alignment.town PlayerStatus.alive),
     ("p2", mkPlayer "p2" "Player2" RoleId.townsperson Alignment.town PlayerStatus.alive),
     ("p3", mkPlayer "p3" "Player3" RoleId.mafia Alignment.mafia PlayerStatus.alive),
     ("p4", mkPlayer "p4" "Player4" RoleId.townsperson Alignment.town PlayerStatus.alive)]
    []
    [("v1", mkVote "v1" "p3" (some "p1")),
     ("v2", mkVote "v2" "p4" (some "p2")),
     ("v3", mkVote "v3" "p1" (some "p2")),
     ("v4", mkVote "v4" "p2" (some "p1"))]


def c1State0 : RoomState :=
  mkState Phase.vote defaultSettings
    [("p1", mkPlayer "p1" "Player1" RoleId.townsperson Alignment.town PlayerStatus.alive),
     ("p2", mkPlayer "p2" "Player2" RoleId.townsperson Alignment.town PlayerStatus.alive),
     ("p3", mkPlayer "p3" "Player3" RoleId.mafia Alignment.mafia PlayerStatus.alive)]
    [] []

def c1Step1 : List PId × RoomState := voteCastStep [] c1State0 "p1" "a1" (some "p2") 100

def c1Step2 : List PId × RoomState := voteCastStep c1Step1.1 c1Step1.2 "p1" "a2" (some "p2") 200




def c3State : RoomState :=
  mkState Phase.ended defaultSettings
    [("p1", mkPlayer "p1" "Player1" RoleId.townsperson Alignment.town PlayerStatus.alive),
     ("p2", mkPlayer "p2" "Player2" RoleId.mafia Alignment.mafia PlayerStatus.alive)]
    [] []


def c4Kills : List (PId × NightAction) :=
  [("k1", mkKill "k1" "m1" "t1" 5), ("k2", mkKill "k2" "m2" "t2" 7)]

def c4Players : List (PId × Player) :=
  [("m1", mkPlayer "m1" "MafiaOne" RoleId.mafia Alignment.mafia PlayerStatus.alive),
   ("m2", mkPlayer "m2" "MafiaTwo" RoleId.mafia Alignment.mafia PlayerStatus.alive),
   ("t1", mkPlayer "t1" "TownOne" RoleId.townsperson Alignment.town PlayerStatus.alive),
   ("t2", mkPlayer "t2" "TownTwo" RoleId.townsperson Alignment.town PlayerStatus.alive)]

def c4StateA : RoomState := mkState Phase.night defaultSettings c4Players c4Kills []

def c4StateB : RoomState := mkState Phase.night defaultSettings c4Players c4Kills.reverse []




def c5State : RoomState :=
  mkState Phase.night defaultSettings
    [("m1", mkPlayer "m1" "MafiaOne" RoleId.mafia Alignment.mafia PlayerStatus.alive),
     ("m2", mkPlayer "m2" "MafiaTwo" RoleId.mafia Alignment.mafia PlayerStatus.alive)]
    [("k1", mkKill "k1" "m1" "m2" 5)] []



def c4DistinctState : RoomState :=
  mkState Phase.night defaultSettings
    [("m1", mkPlayer "m1" "MafiaOne" RoleId.mafia Alignment.mafia PlayerStatus.alive),
     ("d1", mkPlayer "d1" "DocOne" RoleId.doctor Alignment.town PlayerStatus.alive),
     ("t1", mkPlayer "t1" "TownOne" RoleId.townsperson Alignment.town PlayerStatus.alive)]
    [("k1", mkKill "k1" "m1" "t1" 5),
     ("pr1", { id := "pr1", actionId := "pr1", playerId := "d1",
               type := ActionType.PROTECT, targetId := "t1",
               submittedAt := 3, priority := 20 })]
    []

def c8State0 : RoomState :=
  mkState Phase.night defaultSettings
    [("m1", mkPlayer "m1" "MafiaOne" RoleId.mafia Alignment.mafia PlayerStatus.alive),
     ("t1", mkPlayer "t1" "TownOne" RoleId.townsperson Alignment.town PlayerStatus.alive)]
    [] []

def c8State1 : RoomState :=
  (actionSubmitStep [] c8State0 "m1" "a1" ActionType.KILL "t1" 50).2



def c3wState : RoomState :=
  mkState Phase.day_discussion
    { defaultSettings with revealRolesOnDeath := true }
    [("p1", mkPlayer "p1" "Player1" RoleId.townsperson Alignment.town PlayerStatus.alive),
     ("p2", mkPlayer "p2" "Player2" RoleId.mafia Alignment.mafia PlayerStatus.dead),
     ("p3", mkPlayer "p3" "Player3" RoleId.doctor Alignment.town PlayerStatus.alive)]
    [] []

def c9Pre : RoomState := mkState Phase.lobby defaultSettings
  [("p1", mkPlayer "p1" "Host" RoleId.townsperson Alignment.town PlayerStatus.alive)] [] []

def c9BadNew : RoomState := { c9Pre with hostId := "p2" }



end Mafia

namespace Mafia

/-! ## Proof infrastructure -/

theorem filter_filter_length {α : Type} (f g : α → Bool) (l : List α) :
    ((l.filter f).filter g).length = l.countP (fun a => f a && g a) := by
  rw [List.filter_filter, List.countP_eq_length_filter]
  congr 1
  apply List.filter_congr
  intro a _
  exact Bool.and_comm (g a) (f a)

theorem lookup_isSome_iff_keys {α : Type} (l : List (PId × α)) (k : PId) :
    (List.lookup k l).isSome = (l.map Prod.fst).contains k := by
  induction l with
  | nil => rfl
  | cons e t ih =>
    by_cases h : k == e.1 <;> simp [List.lookup, h, ih]

theorem mem_unique_of_nodup_keys {α : Type} (l : List (PId × α))
    (hnd : (l.map Prod.fst).Nodup) (a : PId) (b c : α)
    (hb : (a, b) ∈ l) (hc : (a, c) ∈ l) : b = c := by
  induction l with
  | nil => cases hb
  | cons e t ih =>
    simp only [List.map_cons, List.nodup_cons] at hnd
    rcases List.mem_cons.mp hb with hb1 | hb2 <;>
      rcases List.mem_cons.mp hc with hc1 | hc2
    · exact congrArg Prod.snd (hb1.trans hc1.symm)
    · exact absurd (List.mem_map.mpr ⟨(a, c), hc2, by rw [← hb1]⟩) hnd.1
    · exact absurd (List.mem_map.mpr ⟨(a, b), hb2, by rw [← hc1]⟩) hnd.1
    · exact ih hnd.2 hb2 hc2

end Mafia

namespace Mafia

/-- C7: counting only players with status alive, `checkVictoryCondition`
returns mafia-victory iff aliveMafia ≥ aliveTown + aliveNeutral, else
town-victory iff aliveMafia = 0, else none. -/
theorem checkVictoryCondition_spec (state : RoomState) :
    checkVictoryCondition state =
      (if alignedAliveCount state.players Alignment.mafia ≥
          alignedAliveCount state.players Alignment.town +
          alignedAliveCount state.players Alignment.neutral then
        VictoryCondition.mafiaVictory
      else if alignedAliveCount state.players Alignment.mafia = 0 then
        VictoryCondition.townVictory
      else VictoryCondition.none) := by
  unfold checkVictoryCondition alignedAliveCount
  simp only [filter_filter_length]

/-- C10: `createClientView` returns a view exactly when the viewer is a key of
`state.players`; for non-members it throws instead. -/
theorem createClientView_membership (state : RoomState) (playerId : PId) :
    (createClientView state playerId).isOk =
      (state.players.map Prod.fst).contains playerId := by
  rw [← lookup_isSome_iff_keys]
  unfold createClientView
  cases List.lookup playerId state.players <;> rfl

/-- C5 (amended): `processKillAction` queues the kill target exactly when the
target exists and is alive and the actor exists, is alive and is mafia — the
the alignment of the target is not checked, so an alive mafia target is killable. -/
theorem processKillAction_iff (state : RoomState) (action : NightAction) (r : PId) :
    processKillAction state action = some r ↔
      r = action.targetId ∧
      (∃ t, List.lookup action.targetId state.players = some t ∧
        t.status = PlayerStatus.alive) ∧
      (∃ a, List.lookup action.playerId state.players = some a ∧
        a.status = PlayerStatus.alive ∧ a.alignment = Alignment.mafia) := by
  unfold processKillAction
  cases ht : List.lookup action.targetId state.players with
  | none => simp
  | some t =>
    cases ha : List.lookup action.playerId state.players with
    | none =>
      by_cases hts : t.status = PlayerStatus.alive <;> simp [hts]
    | some a =>
      by_cases hts : t.status = PlayerStatus.alive <;>
        by_cases has : a.status = PlayerStatus.alive <;>
          by_cases hal : a.alignment = Alignment.mafia <;>
            simp [hts, has, hal, bne_iff_ne] <;>
            exact eq_comm

/-- C9: `updateRoomState` rejects a commit whose hostId is missing or differs
from the pre-image, and any successfully committed state carries the
hostId of the pre-image (so the hostId of a room never changes after creation); in the
`Except` model an error leaves the stored state untouched. -/
theorem updateRoomState_hostId_invariant (existingState : Option RoomState)
    (state : RoomState) (now : Nat) :
    ((truthy state.hostId = false ∨
      ∃ ex, existingState = some ex ∧ state.hostId ≠ ex.hostId) →
      ∃ msg, updateRoomState existingState state now = Except.error msg) ∧
    (∀ ex committed, existingState = some ex →
      updateRoomState existingState state now = Except.ok committed →
      committed.hostId = ex.hostId) := by
  constructor
  · intro h
    simp only [updateRoomState]
    rcases h with h | ⟨ex, hex, hne⟩
    · simp [h]
    · subst hex
      by_cases htr : truthy state.hostId
      · simp [htr, bne_iff_ne, hne]
      · rw [Bool.not_eq_true] at htr
        simp [htr]
  · intro ex committed hex hok
    subst hex
    simp only [updateRoomState] at hok
    split at hok
    · exact Except.noConfusion hok
    · split at hok
      · exact Except.noConfusion hok
      · rename_i hch
        have heq : state.hostId = ex.hostId := by
          by_contra hne
          exact hch (bne_iff_ne.mpr hne)
        split at hok <;> split at hok
        · injection hok with hc
          subst hc
          rfl
        · exact Except.noConfusion hok
        · injection hok with hc
          subst hc
          exact heq
        · exact Except.noConfusion hok

end Mafia

namespace Mafia

theorem maxCount_cons (e : PId × Nat) (t : List (PId × Nat)) :
    maxCount (e :: t) = max e.2 (maxCount t) := rfl

theorem plurality_foldl (l : List (PId × Nat)) (h : Nat) (w : Option PId) :
    l.foldl pluralityStep (h, w) =
      (max h (maxCount l),
       if maxCount l > h then
         (l.find? (fun e => e.2 == maxCount l)).map Prod.fst
       else w) := by
  induction l generalizing h w with
  | nil => simp [maxCount]
  | cons e t ih =>
    rw [List.foldl_cons, maxCount_cons]
    by_cases he : e.2 > h
    · rw [show pluralityStep (h, w) e = (e.2, some e.1) by
        simp [pluralityStep, he]]
      rw [ih]
      by_cases hm : maxCount t > e.2
      · have h1 : max e.2 (maxCount t) = maxCount t := by omega
        have h2 : max h (maxCount t) = maxCount t := by omega
        have hfe : (e.2 == maxCount t) = false := by
          simp
          omega
        rw [h1, h2]
        simp [List.find?_cons, hfe, hm, show maxCount t > h by omega]
      · have h1 : max e.2 (maxCount t) = e.2 := by omega
        have h2 : max h e.2 = e.2 := by omega
        rw [h1, h2]
        simp [List.find?_cons, hm, he]
    · rw [show pluralityStep (h, w) e = (h, w) by
        simp [pluralityStep, he]]
      rw [ih]
      have h1 : max h (max e.2 (maxCount t)) = max h (maxCount t) := by omega
      rw [h1]
      by_cases hm : maxCount t > h
      · have h2 : max e.2 (maxCount t) = maxCount t := by omega
        have hfe : (e.2 == maxCount t) = false := by
          simp
          omega
        rw [h2]
        simp [List.find?_cons, hfe, hm]
      · have h2 : ¬(max e.2 (maxCount t) > h) := by omega
        simp [hm, h2]

end Mafia

namespace Mafia

theorem majority_foldl (l : List (PId × Nat)) (h c : Nat) (w : Option PId) :
    l.foldl majorityStep (h, c, w) =
      (if maxCount l > h then
        (maxCount l, l.countP (fun e => e.2 == maxCount l),
          (l.find? (fun e => e.2 == maxCount l)).map Prod.fst)
      else (h, c + l.countP (fun e => e.2 == h && decide (0 < h)), w)) := by
  induction l generalizing h c w with
  | nil => simp [maxCount]
  | cons e t ih =>
    rw [List.foldl_cons, maxCount_cons]
    by_cases he : e.2 > h
    · rw [show majorityStep (h, c, w) e = (e.2, 1, some e.1) by
        simp [majorityStep, he]]
      rw [ih]
      by_cases hm : maxCount t > e.2
      · have h1 : max e.2 (maxCount t) = maxCount t := by omega
        rw [h1]
        have hfe : (e.2 == maxCount t) = false := by
          simp
          omega
        simp [hm, show maxCount t > h by omega, List.find?_cons,
          List.countP_cons, hfe]
      · have h1 : max e.2 (maxCount t) = e.2 := by omega
        rw [h1]
        have hpos : decide (0 < e.2) = true := by
          simp
          omega
        simp [hm, he, List.find?_cons, List.countP_cons, hpos, Nat.add_comm]
    · by_cases heq : (e.2 == h && decide (e.2 > 0)) = true
      · rw [show majorityStep (h, c, w) e = (h, c + 1, w) by
          simp only [majorityStep, if_neg he, heq, if_true]]
        rw [ih]
        have he2 : e.2 = h := by
          have := (Bool.and_eq_true _ _).mp heq
          exact beq_iff_eq.mp this.1
        have hpos : 0 < h := by
          have := (Bool.and_eq_true _ _).mp heq
          have h2 := of_decide_eq_true this.2
          omega
        have h1 : max e.2 (maxCount t) = max h (maxCount t) := by omega
        rw [h1]
        by_cases hm : maxCount t > h
        · have hmx : max h (maxCount t) = maxCount t := by omega
          rw [hmx]
          have hfe : (e.2 == maxCount t) = false := by
            simp
            omega
          simp [hm, List.find?_cons, List.countP_cons, hfe]
        · have hmx : max h (maxCount t) = h := by omega
          rw [hmx]
          have hfe : (e.2 == h && decide (0 < h)) = true := by
            simp [he2]
            omega
          simp [hm, he, List.countP_cons, hfe]
          omega
      · rw [show majorityStep (h, c, w) e = (h, c, w) by
          simp [majorityStep, he, heq]]
        rw [ih]
        have hno : ¬(e.2 = h ∧ 0 < e.2) := by
          intro hcon
          apply heq
          obtain ⟨hc1, hc2⟩ := hcon
          simp [hc1]
          omega
        by_cases hm : maxCount t > h
        · have hmx : max e.2 (maxCount t) = maxCount t := by omega
          rw [hmx]
          have hfe : (e.2 == maxCount t) = false := by
            simp
            omega
          simp [hm, List.find?_cons, List.countP_cons, hfe]
        · have hmx : ¬(max e.2 (maxCount t) > h) := by omega
          have hfe : (e.2 == h && decide (0 < h)) = false := by
            by_cases hz : e.2 = h
            · have : ¬(0 < e.2) := fun hp => hno ⟨hz, hp⟩
              simp [hz]
              omega
            · simp [hz]
          simp [hm, hmx, List.countP_cons, hfe]

end Mafia

namespace Mafia

theorem filter_eq_singleton_iff {α : Type} (q : α → Bool) (l : List α) (e : α) :
    l.filter q = [e] ↔ (l.countP q = 1 ∧ l.find? q = some e) := by
  induction l with
  | nil => simp
  | cons a t ih =>
    by_cases hq : q a
    · simp only [List.filter_cons, hq, if_true, List.countP_cons,
        List.find?_cons, List.cons.injEq]
      constructor
      · rintro ⟨h1, h2⟩
        have hc : t.countP q = 0 :=
          List.countP_eq_zero.mpr (List.filter_eq_nil.mp h2)
        simp [hc, h1]
      · rintro ⟨hc, hf⟩
        have hc0 : t.countP q = 0 := by omega
        have hnil : t.filter q = [] :=
          List.filter_eq_nil.mpr (List.countP_eq_zero.mp hc0)
        have ha : a = e := by
          have := hf
          simp [hq] at this
          exact this
        exact ⟨ha, hnil⟩
    · simp only [List.filter_cons, hq, if_false, List.countP_cons,
        List.find?_cons]
      simpa [hq] using ih

theorem resolvePluralityVote_eq (t : List (PId × Nat)) :
    resolvePluralityVote t =
      (if maxCount t > 0 then
        (t.find? (fun e => e.2 == maxCount t)).map Prod.fst
      else Option.none) := by
  unfold resolvePluralityVote
  rw [plurality_foldl]
  by_cases hm : maxCount t > 0
  · simp [hm, Nat.zero_max]
  · simp [hm, Nat.zero_max]

/-- C6: under majority mode the resolver lynches `p` iff the highest tally is
at least ⌊aliveCount/2⌋+1 and `p` is its sole holder; a tie for the top or a
missed threshold yields no lynch. -/
theorem resolveMajorityVote_iff (t : List (PId × Nat)) (aliveCount : Nat)
    (p : PId) :
    resolveMajorityVote t aliveCount = some p ↔
      maxCount t ≥ aliveCount / 2 + 1 ∧
      (t.filter (fun e => e.2 == maxCount t)).map Prod.fst = [p] := by
  unfold resolveMajorityVote
  rw [majority_foldl]
  by_cases hm : maxCount t > 0
  · rw [if_pos hm]
    constructor
    · intro hsome
      by_cases hcond : (decide (maxCount t ≥ aliveCount / 2 + 1) &&
          (t.countP (fun e => e.2 == maxCount t) == 1)) = true
      · obtain ⟨hthr, hcnt⟩ := (Bool.and_eq_true _ _).mp hcond
        have hthr2 : maxCount t ≥ aliveCount / 2 + 1 := of_decide_eq_true hthr
        have hcnt2 : t.countP (fun e => e.2 == maxCount t) = 1 := by
          simpa using hcnt
        simp only [hcond, if_true] at hsome
        obtain ⟨x, hx, hxp⟩ := Option.map_eq_some'.mp hsome
        have hfil : t.filter (fun e => e.2 == maxCount t) = [x] :=
          (filter_eq_singleton_iff _ t x).mpr ⟨hcnt2, hx⟩
        exact ⟨hthr2, by simp [hfil, hxp]⟩
      · simp only [hcond, if_false] at hsome
        exact Option.noConfusion hsome
    · rintro ⟨hthr, hmap⟩
      obtain ⟨x, hfil, hxp⟩ : ∃ x,
          t.filter (fun e => e.2 == maxCount t) = [x] ∧ x.1 = p := by
        cases hf : t.filter (fun e => e.2 == maxCount t) with
        | nil => rw [hf] at hmap; exact absurd hmap (by simp)
        | cons x rest =>
          cases rest with
          | nil =>
            rw [hf] at hmap
            simp at hmap
            exact ⟨x, rfl, hmap⟩
          | cons y rest2 => rw [hf] at hmap; exact absurd hmap (by simp)
      obtain ⟨hcnt, hfind⟩ := (filter_eq_singleton_iff _ t x).mp hfil
      have hcond : (decide (maxCount t ≥ aliveCount / 2 + 1) &&
          (t.countP (fun e => e.2 == maxCount t) == 1)) = true := by
        simp [hthr, hcnt]
      simp [hcond, hfind, hxp]
  · rw [if_neg hm]
    have hM : maxCount t = 0 := by omega
    have hcp : t.countP (fun e => e.2 == 0 && decide (0 < 0)) = 0 := by
      simp
    rw [hM, hcp]
    simp only [Nat.add_zero]
    constructor
    · intro hsome
      by_cases hcond : (decide (0 ≥ aliveCount / 2 + 1) && (0 == 1)) = true
      · simp at hcond
      · simp only [hcond, if_false] at hsome
        exact Option.noConfusion hsome
    · rintro ⟨hthr, -⟩
      exact absurd hthr (by omega)

end Mafia

namespace Mafia

/-- C2 counterexample: under plurality mode, with p1 and p2 tied at the
strictly highest positive count (2 votes each among 4 alive players), the code
lynches p1 — the first top holder in tally order — instead of no one. -/
theorem plurality_tie_lynches_first :
    c2State.settings.votingMode = VotingMode.plurality ∧
    List.lookup "p1" (resolveVoting c2State).tallies = some 2 ∧
    List.lookup "p2" (resolveVoting c2State).tallies = some 2 ∧
    maxCount (resolveVoting c2State).tallies = 2 ∧
    (resolveVoting c2State).lynchTargetId = some "p1" := by
  refine ⟨rfl, by decide, by decide, by decide, by decide⟩

/-- C2 (amended): under plurality mode the resolver lynches the first player
in tally order holding the highest count, whenever that count is positive;
ties for the top do not prevent a lynch, and only an all-zero tally yields
none. -/
theorem plurality_lynches_first_top_holder (state : RoomState)
    (hmode : state.settings.votingMode = VotingMode.plurality) :
    (resolveVoting state).lynchTargetId =
      (let t := calculateVoteTallies (state.votes.map Prod.snd)
        (((state.players.map Prod.snd).filter
          (fun p => p.status == PlayerStatus.alive)).map (fun p => p.id));
       if maxCount t > 0 then
         (t.find? (fun e => e.2 == maxCount t)).map Prod.fst
       else Option.none) := by
  simp only [resolveVoting, hmode]
  rw [show (VotingMode.plurality == VotingMode.majority) = false from rfl]
  simp only [Bool.false_eq_true, if_false]
  exact resolvePluralityVote_eq _

theorem plurality_lynches_first_top_holder_witness :
    c2State.settings.votingMode = VotingMode.plurality ∧
    (resolveVoting c2State).lynchTargetId = some "p1" :=
  ⟨rfl, (plurality_lynches_first_top_holder c2State rfl).trans (by decide)⟩

end Mafia

namespace Mafia

theorem pairwise_and {α : Type} {R S : α → α → Prop} {l : List α}
    (hr : l.Pairwise R) (hs : l.Pairwise S) :
    l.Pairwise (fun a b => R a b ∧ S a b) := by
  induction l with
  | nil => exact List.Pairwise.nil
  | cons a t ih =>
    cases hr with
    | cons hra hrt =>
      cases hs with
      | cons hsa hst =>
        exact List.Pairwise.cons (fun b hb => ⟨hra b hb, hsa b hb⟩) (ih hrt hst)

/-- A stable sort by priority is uniquely determined by the multiset of
actions once all priorities are pairwise distinct. -/
theorem insertionSort_priority_eq (A B : List NightAction)
    (hp : A.Perm B)
    (hn : (A.map (fun a => a.priority)).Nodup) :
    A.insertionSort (fun a b => a.priority ≤ b.priority) =
      B.insertionSort (fun a b => a.priority ≤ b.priority) := by
  haveI ht : IsTotal NightAction (fun a b => a.priority ≤ b.priority) :=
    ⟨fun a b => Nat.le_total _ _⟩
  haveI htr : IsTrans NightAction (fun a b => a.priority ≤ b.priority) :=
    ⟨fun _ _ _ h1 h2 => Nat.le_trans h1 h2⟩
  haveI hanti : IsAntisymm NightAction (fun a b => a.priority < b.priority) :=
    ⟨fun a b h1 h2 => absurd (Nat.lt_trans h1 h2) (Nat.lt_irrefl _)⟩
  have hsA := List.sorted_insertionSort
    (fun a b : NightAction => a.priority ≤ b.priority) A
  have hsB := List.sorted_insertionSort
    (fun a b : NightAction => a.priority ≤ b.priority) B
  have hpp : (A.insertionSort (fun a b => a.priority ≤ b.priority)).Perm
      (B.insertionSort (fun a b => a.priority ≤ b.priority)) :=
    (List.perm_insertionSort _ A).trans
      (hp.trans (List.perm_insertionSort _ B).symm)
  have hnA : ((A.insertionSort (fun a b => a.priority ≤ b.priority)).map
      (fun a => a.priority)).Nodup :=
    (((List.perm_insertionSort _ A).map (fun a => a.priority)).nodup_iff).mpr hn
  have hnB : ((B.insertionSort (fun a b => a.priority ≤ b.priority)).map
      (fun a => a.priority)).Nodup :=
    (((List.perm_insertionSort _ B).map (fun a => a.priority)).nodup_iff).mpr
      (((hp.map (fun a => a.priority)).nodup_iff).mp hn)
  have hltA : (A.insertionSort (fun a b => a.priority ≤ b.priority)).Pairwise
      (fun a b => a.priority < b.priority) := by
    have hne := List.pairwise_map.mp hnA
    exact (pairwise_and hsA hne).imp
      (fun h => Nat.lt_of_le_of_ne h.1 h.2)
  have hltB : (B.insertionSort (fun a b => a.priority ≤ b.priority)).Pairwise
      (fun a b => a.priority < b.priority) := by
    have hne := List.pairwise_map.mp hnB
    exact (pairwise_and hsB hne).imp
      (fun h => Nat.lt_of_le_of_ne h.1 h.2)
  exact List.eq_of_perm_of_sorted hpp hltA hltB

end Mafia

namespace Mafia

/-- C4 counterexample: two states with identical players whose `nightActions`
maps hold the same set of actions (two equal-priority KILLs by two mafia
actors, distinct submittedAt and actionId) in permuted insertion order resolve
to different victims — the stable sort breaks priority ties by insertion
order, not by (submittedAt, actionId). -/
theorem night_resolution_insertion_order_sensitive :
    c4StateB.players = c4StateA.players ∧
    c4StateB.nightActions.Perm c4StateA.nightActions ∧
    (resolveNightActions c4StateA).killedPlayerId = some "t2" ∧
    (resolveNightActions c4StateB).killedPlayerId = some "t1" := by
  refine ⟨rfl, by decide, by decide, by decide⟩

/-- C4 (amended): night resolution sorts the materialised actions by priority
ascending only, with a stable sort; hence permuting the insertion order of
`nightActions` leaves the entire result unchanged provided the actions carry
pairwise distinct priorities (ties on priority are resolved by insertion
order, not by submittedAt or actionId). -/
theorem nightScanStep_players_congr (s1 s2 : RoomState)
    (hp : s1.players = s2.players) : nightScanStep s1 = nightScanStep s2 := by
  funext acc a
  simp only [nightScanStep, processKillAction, processProtectAction,
    processInvestigateAction, hp]

theorem night_resolution_perm_invariant (s : RoomState)
    (l : List (PId × NightAction))
    (hperm : s.nightActions.Perm l)
    (hnodup : ((s.nightActions.map Prod.snd).map (fun a => a.priority)).Nodup) :
    resolveNightActions { s with nightActions := l } = resolveNightActions s := by
  have hnl : (((l.map Prod.snd)).map (fun a => a.priority)).Nodup :=
    (((hperm.map Prod.snd).map (fun a => a.priority)).nodup_iff).mp hnodup
  have hsort : ((l.map Prod.snd).insertionSort
        (fun a b => a.priority ≤ b.priority))
      = ((s.nightActions.map Prod.snd).insertionSort
        (fun a b => a.priority ≤ b.priority)) :=
    insertionSort_priority_eq _ _ ((hperm.map Prod.snd).symm) hnl
  simp only [resolveNightActions]
  rw [hsort, nightScanStep_players_congr { s with nightActions := l } s rfl]

theorem night_resolution_perm_invariant_witness :
    c4DistinctState.nightActions.Perm c4DistinctState.nightActions.reverse ∧
    ((c4DistinctState.nightActions.map Prod.snd).map
      (fun a => a.priority)).Nodup ∧
    resolveNightActions
        { c4DistinctState with
            nightActions := c4DistinctState.nightActions.reverse } =
      resolveNightActions c4DistinctState :=
  ⟨by decide, by decide,
   night_resolution_perm_invariant c4DistinctState
     c4DistinctState.nightActions.reverse (by decide) (by decide)⟩

end Mafia

namespace Mafia

/-- C3 counterexample: in a room with `phase = ended` and
`revealRolesOnDeath = false`, the view built for p1 contains the entry of the
(alive, non-viewer) player p2 without `roleId` — the code has no
phase-is-ended disjunct in the redaction condition. -/
theorem roleId_hidden_at_ended_phase :
    c3State.phase = Phase.ended ∧
    c3State.settings.revealRolesOnDeath = false ∧
    ((createClientView c3State "p1").toOption.bind
      (fun v => List.lookup "p2" v.players)).map (fun pp => pp.roleId) =
        some Option.none :=
  ⟨rfl, rfl, by decide⟩

/-- C3 (amended): in any view produced for a member viewer (over a state whose
player keys are distinct, as JS object keys are), an entry carries `roleId`
iff the entry is the viewer or `revealRolesOnDeath` holds and that player is
dead — the room phase plays no role. -/
theorem roleId_visibility_iff (state : RoomState) (viewer : PId)
    (v : ClientView)
    (hnd : (state.players.map Prod.fst).Nodup)
    (hok : createClientView state viewer = Except.ok v) :
    ∀ id pp, (id, pp) ∈ v.players →
      (pp.roleId.isSome = true ↔
        (id = viewer ∨ (state.settings.revealRolesOnDeath = true ∧
          ∃ p, (id, p) ∈ state.players ∧ p.status = PlayerStatus.dead))) := by
  have hvp : v.players = state.players.map (redactPlayer state viewer) := by
    unfold createClientView at hok
    cases hl : List.lookup viewer state.players with
    | none => rw [hl] at hok; exact Except.noConfusion hok
    | some player =>
      rw [hl] at hok
      injection hok with hv
      subst hv
      rfl
  intro id pp hmem
  rw [hvp] at hmem
  obtain ⟨e, he, hred⟩ := List.mem_map.mp hmem
  have hid : e.1 = id := congrArg Prod.fst hred
  have hpp : pp.roleId =
      (if (state.settings.revealRolesOnDeath &&
           e.2.status == PlayerStatus.dead) || e.1 == viewer then
        some e.2.roleId
      else Option.none) := by
    have hsnd : (redactPlayer state viewer e).2 = pp :=
      congrArg Prod.snd hred
    rw [← hsnd]
    rfl
  constructor
  · intro hs
    rw [hpp] at hs
    by_cases hcond : ((state.settings.revealRolesOnDeath &&
        e.2.status == PlayerStatus.dead) || e.1 == viewer) = true
    · rcases (Bool.or_eq_true _ _).mp hcond with hc1 | hc2
      · obtain ⟨hrev, hdead⟩ := (Bool.and_eq_true _ _).mp hc1
        refine Or.inr ⟨hrev, e.2, ?_, beq_iff_eq.mp hdead⟩
        rw [← hid]
        exact he
      · exact Or.inl (hid.symm.trans (beq_iff_eq.mp hc2))
    · rw [if_neg (by simpa using hcond)] at hs
      exact absurd hs (by simp)
  · intro hr
    rw [hpp]
    rcases hr with hr | ⟨hrev, p, hpmem, hdead⟩
    · have hbeq : (e.1 == viewer) = true := beq_iff_eq.mpr (hid.trans hr)
      simp [hbeq]
    · have hpe : p = e.2 := by
        refine mem_unique_of_nodup_keys state.players hnd id p e.2 hpmem ?_
        rw [← hid]
        exact he
      have hds : e.2.status = PlayerStatus.dead := hpe ▸ hdead
      simp [hrev, hds]

theorem roleId_visibility_iff_witness :
    (c3wState.players.map Prod.fst).Nodup ∧
    ∃ v, createClientView c3wState "p1" = Except.ok v ∧
      ∀ id pp, (id, pp) ∈ v.players →
        (pp.roleId.isSome = true ↔
          (id = "p1" ∨ (c3wState.settings.revealRolesOnDeath = true ∧
            ∃ p, (id, p) ∈ c3wState.players ∧
              p.status = PlayerStatus.dead))) :=
  ⟨by decide, _, rfl, roleId_visibility_iff c3wState "p1" _ (by decide) rfl⟩

/-- C5 counterexample: both m1 and m2 are alive mafia; the single KILL by m1
on m2 goes through and `resolveNightActions` marks the mafia-aligned m2 dead —
the resolution step never checks that the target is non-mafia. -/
theorem kill_marks_mafia_target_dead :
    (List.lookup "m1" c5State.players).map (fun p => (p.status, p.alignment)) =
      some (PlayerStatus.alive, Alignment.mafia) ∧
    (List.lookup "m2" c5State.players).map (fun p => (p.status, p.alignment)) =
      some (PlayerStatus.alive, Alignment.mafia) ∧
    (resolveNightActions c5State).killedPlayerId = some "m2" ∧
    (List.lookup "m2" (resolveNightActions c5State).updatedState.players).map
      (fun p => (p.status, p.alignment)) =
        some (PlayerStatus.dead, Alignment.mafia) :=
  ⟨by decide, by decide, by decide, by decide⟩

/-- C1: evaluating the dispatcher at the failing input.  Starting from an
empty votes map in the voting phase, the alive player p1 issues two `vote.cast`
commands with fresh actionIds a1 and a2; the committed votes map then holds
TWO votes with `playerId = p1` and the tally credits p2 with 2 votes — the
dispatcher never deletes the prior vote of the same player. -/
theorem voteCast_inserts_without_deleting_prior :
    (List.lookup "p1" c1State0.players).map (fun p => p.status) =
      some PlayerStatus.alive ∧
    c1State0.votes = [] ∧
    (c1Step2.2.votes.map Prod.snd).countP (fun v => v.playerId == "p1") = 2 ∧
    List.lookup "p2" (calculateVoteTallies (c1Step2.2.votes.map Prod.snd)
      (((c1Step2.2.players.map Prod.snd).filter
        (fun p => p.status == PlayerStatus.alive)).map (fun p => p.id))) =
      some 2 :=
  ⟨by decide, rfl, by decide, by decide⟩

/-- C8: evaluating the view at the failing input.  The dispatcher stores the
night action of viewer m1 under its actionId a1; `createClientView` looks the
viewer up under the key m1 and finds nothing, so the produced view carries no
`lockedAction` although the phase is night and m1 has a submitted action. -/
theorem lockedAction_absent_after_submit :
    c8State1.phase = Phase.night ∧
    List.lookup "a1" c8State1.nightActions =
      some { id := "a1", actionId := "a1", playerId := "m1",
             type := ActionType.KILL, targetId := "t1",
             submittedAt := 50, priority := 10 } ∧
    (createClientView c8State1 "m1").toOption.map (fun v => v.lockedAction) =
      some Option.none :=
  ⟨rfl, by decide, by decide⟩

theorem updateRoomState_hostId_invariant_witness :
    (∃ msg, updateRoomState (some c9Pre) c9BadNew 5 = Except.error msg) ∧
    (∀ committed, updateRoomState (some c9Pre) c9Pre 5 = Except.ok committed →
      committed.hostId = c9Pre.hostId) :=
  ⟨(updateRoomState_hostId_invariant (some c9Pre) c9BadNew 5).1
      (Or.inr ⟨c9Pre, rfl, by decide⟩),
   fun committed h =>
     (updateRoomState_hostId_invariant (some c9Pre) c9Pre 5).2
       c9Pre committed rfl h⟩

end Mafia
